import Mathlib

set_option autoImplicit false

namespace Ridgenative

/- Shallow embedding of github.com/shogo82148/ridgenative.
   Go bytes are modelled as natural numbers (each < 256 where it matters);
   Go strings are UTF-8 byte sequences, so response bodies are byte lists.
   Go maps are modelled as association lists with pairwise-distinct keys
   (map iteration order in Go is unspecified; all statements proved here are
   order-insensitive or lookup-level). -/

abbrev Bytes := List Nat

def concatAll {α : Type} : List (List α) → List α
  | [] => []
  | l :: t => l ++ concatAll t

/-- UTF-8 encoding of a single character, by code-point range. -/
def utf8Bytes (c : Char) : Bytes :=
  let n := c.toNat
  if n < 128 then [n]
  else if n < 2048 then [192 + n / 64, 128 + n % 64]
  else if n < 65536 then [224 + n / 4096, 128 + n / 64 % 64, 128 + n % 64]
  else [240 + n / 262144, 128 + n / 4096 % 64, 128 + n / 64 % 64, 128 + n % 64]

def bytesOfChars : List Char → Bytes
  | [] => []
  | c :: t => utf8Bytes c ++ bytesOfChars t

def bytesOfString (s : String) : Bytes := bytesOfChars s.data

/- ---------------------------------------------------------------------
   Association-list maps (model of Go maps / net/http.Header).
   --------------------------------------------------------------------- -/

def assocLookup {α : Type} : List (String × α) → String → Option α
  | [], _ => none
  | kv :: t, k => if kv.1 = k then some kv.2 else assocLookup t k

/-- Model of a Go map assignment `m[k] = v`: replace the entry if the key is
present, otherwise append a new entry. -/
def assocUpsert {α : Type} : List (String × α) → String → α → List (String × α)
  | [], k, v => [(k, v)]
  | kv :: t, k, v => if kv.1 = k then (k, v) :: t else kv :: assocUpsert t k v

/-- Building a Go map by iterating over the entries of another map
(`for k, v := range src`, body `dst[f k] = g v`). -/
def buildMap {α : Type} (l : List (String × α)) : List (String × α) :=
  l.foldl (fun acc kv => assocUpsert acc kv.1 kv.2) []

/-- Last-wins lookup over a list of assignments. -/
def lookupLast {α : Type} : List (String × α) → String → Option α
  | [], _ => none
  | kv :: t, k =>
    match lookupLast t k with
    | some v => some v
    | none => if kv.1 = k then some kv.2 else none

/- ---------------------------------------------------------------------
   net/textproto canonical MIME header keys and net/http.Header operations.
   --------------------------------------------------------------------- -/

/-- Token bytes permitted in a MIME header field name
(net/textproto validHeaderFieldByte): letters, digits and
the bytes 33 35 36 37 38 39 42 43 45 46 94 95 96 124 126. -/
def isTokenChar (c : Char) : Bool :=
  let n := c.toNat
  (65 ≤ n && n ≤ 90) || (97 ≤ n && n ≤ 122) || (48 ≤ n && n ≤ 57) ||
  n = 33 || n = 35 || n = 36 || n = 37 || n = 38 || n = 39 || n = 42 ||
  n = 43 || n = 45 || n = 46 || n = 94 || n = 95 || n = 96 || n = 124 || n = 126

def asciiUpper (c : Char) : Char :=
  if 97 ≤ c.toNat ∧ c.toNat ≤ 122 then Char.ofNat (c.toNat - 32) else c

def asciiLower (c : Char) : Char :=
  if 65 ≤ c.toNat ∧ c.toNat ≤ 90 then Char.ofNat (c.toNat + 32) else c

def canonChars : Bool → List Char → List Char
  | _, [] => []
  | upper, c :: t =>
    let c' := if upper then asciiUpper c else asciiLower c
    c' :: canonChars (c' = '-') t

/-- Model of net/textproto.CanonicalMIMEHeaderKey: if the key contains a
byte that is not a valid header-field byte it is returned unchanged,
otherwise the first letter and every letter following a hyphen is
upper-cased and all other letters are lower-cased. -/
def canonicalMIMEHeaderKey (s : String) : String :=
  if s.data.all isTokenChar then String.mk (canonChars true s.data) else s

/-- net/http.Header: a map from canonical keys to ordered value lists. -/
abbrev Header := List (String × List String)

namespace Header

def lookup (h : Header) (k : String) : Option (List String) := assocLookup h k

/-- Header.Set: canonicalize the key and replace its values with the one value. -/
def set (h : Header) (k v : String) : Header :=
  assocUpsert h (canonicalMIMEHeaderKey k) [v]

/-- Header.Add: canonicalize the key and append the value to its list. -/
def add (h : Header) (k v : String) : Header :=
  let ck := canonicalMIMEHeaderKey k
  match assocLookup h ck with
  | some vs => assocUpsert h ck (vs ++ [v])
  | none => h ++ [(ck, [v])]

/-- Header.Get: first value under the canonical key, or the empty string. -/
def get (h : Header) (k : String) : String :=
  match assocLookup h (canonicalMIMEHeaderKey k) with
  | some (v :: _) => v
  | _ => ""

/-- Header.Values: all values under the canonical key. -/
def values (h : Header) (k : String) : List String :=
  (assocLookup h (canonicalMIMEHeaderKey k)).getD []

end Header

/- ---------------------------------------------------------------------
   encoding/base64 StdEncoding, at the byte level.
   b64code n is the ASCII code of the n-th standard alphabet character;
   61 is the ASCII code of the padding character. -/

def b64code (n : Nat) : Nat :=
  if n < 26 then 65 + n
  else if n < 52 then 97 + (n - 26)
  else if n < 62 then 48 + (n - 52)
  else if n = 62 then 43
  else 47

def b64dec (b : Nat) : Option Nat :=
  if 65 ≤ b ∧ b ≤ 90 then some (b - 65)
  else if 97 ≤ b ∧ b ≤ 122 then some (b - 97 + 26)
  else if 48 ≤ b ∧ b ≤ 57 then some (b - 48 + 52)
  else if b = 43 then some 62
  else if b = 47 then some 63
  else none

/-- Standard base64 encoding with padding, bytes to ASCII codes. -/
def b64EncodeBytes : Bytes → Bytes
  | [] => []
  | [a] => [b64code (a / 4), b64code (a % 4 * 16), 61, 61]
  | [a, b] => [b64code (a / 4), b64code (a % 4 * 16 + b / 16), b64code (b % 16 * 4), 61]
  | a :: b :: c :: rest =>
    b64code (a / 4) :: b64code (a % 4 * 16 + b / 16) ::
    b64code (b % 16 * 4 + c / 64) :: b64code (c % 64) :: b64EncodeBytes rest

/-- Standard base64 decoding with padding, ASCII codes to bytes. -/
def b64DecodeBytes : Bytes → Option Bytes
  | [] => some []
  | c1 :: c2 :: c3 :: c4 :: rest =>
    match b64dec c1, b64dec c2 with
    | some v1, some v2 =>
      if c3 = 61 ∧ c4 = 61 ∧ rest = [] then
        if v2 % 16 = 0 then some [v1 * 4 + v2 / 16] else none
      else if c4 = 61 ∧ rest = [] then
        match b64dec c3 with
        | some v3 =>
          if v3 % 4 = 0 then some [v1 * 4 + v2 / 16, v2 % 16 * 16 + v3 / 4] else none
        | none => none
      else
        match b64dec c3, b64dec c4 with
        | some v3, some v4 =>
          match b64DecodeBytes rest with
          | some tail =>
            some ((v1 * 4 + v2 / 16) :: (v2 % 16 * 16 + v3 / 4) :: (v3 % 4 * 64 + v4) :: tail)
          | none => none
        | _, _ => none
    | _, _ => none
  | _ => none

/- ---------------------------------------------------------------------
   encoding/json string encoding (default HTML-escaping encoder) and
   the sorted-key map encoding used by json.Marshal.
   --------------------------------------------------------------------- -/

def hexDigit (n : Nat) : Char :=
  if n < 10 then Char.ofNat (48 + n) else Char.ofNat (97 + (n - 10))

def jsonEscapeChar (c : Char) : String :=
  if c = '"' then "\\\""
  else if c = '\\' then "\\\\"
  else if c = '\n' then "\\n"
  else if c = '\r' then "\\r"
  else if c = '\t' then "\\t"
  else if c.toNat < 32 then
    String.mk ['\\', 'u', '0', '0', hexDigit (c.toNat / 16), hexDigit (c.toNat % 16)]
  else if c = '<' then "\\u003c"
  else if c = '>' then "\\u003e"
  else if c = '&' then "\\u0026"
  else if c.toNat = 8232 then "\\u2028"
  else if c.toNat = 8233 then "\\u2029"
  else String.singleton c

def jsonEscape : List Char → String
  | [] => ""
  | c :: t => jsonEscapeChar c ++ jsonEscape t

/-- A JSON string literal as produced by encoding/json for the argument. -/
def jsonString (s : String) : String := "\"" ++ jsonEscape s.data ++ "\""

/-- Byte-wise (UTF-8) string order, the order in which json.Marshal and
url.Values.Encode emit map keys. -/
def bytesLe : Bytes → Bytes → Bool
  | [], _ => true
  | _ :: _, [] => false
  | a :: as, b :: bs => if a < b then true else if b < a then false else bytesLe as bs

def strLeB (a b : String) : Bool := bytesLe (bytesOfString a) (bytesOfString b)

def insertSortedBy {α : Type} (le : α → α → Bool) (x : α) : List α → List α
  | [] => [x]
  | y :: t => if le x y then x :: y :: t else y :: insertSortedBy le x t

def sortBy {α : Type} (le : α → α → Bool) : List α → List α
  | [] => []
  | x :: t => insertSortedBy le x (sortBy le t)

def sortByKey {α : Type} (l : List (String × α)) : List (String × α) :=
  sortBy (fun a b => strLeB a.1 b.1) l

/-- json.Marshal of a map[string]string: keys sorted byte-wise. -/
def jsonStringMap (m : List (String × String)) : String :=
  "\x7b" ++
    String.intercalate ","
      ((sortByKey m).map fun kv => jsonString kv.1 ++ ":" ++ jsonString kv.2) ++
  "\x7d"

/-- json.Marshal of a []string. -/
def jsonStringList (l : List String) : String :=
  "[" ++ String.intercalate "," (l.map jsonString) ++ "]"

/- ---------------------------------------------------------------------
   net/url QueryEscape and url.Values.Encode.
   --------------------------------------------------------------------- -/

def hexDigitUpper (n : Nat) : Char :=
  if n < 10 then Char.ofNat (48 + n) else Char.ofNat (65 + (n - 10))

/-- Whether a byte stays unescaped in a query component: alphanumerics and
the bytes for minus, period, underscore, tilde. -/
def queryUnescapedByte (b : Nat) : Bool :=
  (65 ≤ b && b ≤ 90) || (97 ≤ b && b ≤ 122) || (48 ≤ b && b ≤ 57) ||
  b = 45 || b = 46 || b = 95 || b = 126

def queryEscapeByte (b : Nat) : String :=
  if queryUnescapedByte b then String.singleton (Char.ofNat b)
  else if b = 32 then "+"
  else String.mk ['%', hexDigitUpper (b / 16), hexDigitUpper (b % 16)]

def queryEscapeBytes : Bytes → String
  | [] => ""
  | b :: t => queryEscapeByte b ++ queryEscapeBytes t

/-- Model of net/url.QueryEscape, applied byte-wise to the UTF-8 encoding. -/
def queryEscape (s : String) : String := queryEscapeBytes (bytesOfString s)

/-- Model of url.Values.Encode: keys sorted, per-key values in order,
each escaped, joined by ampersands. -/
def urlValuesEncode (vs : List (String × List String)) : String :=
  String.intercalate "&"
    (concatAll ((sortByKey vs).map fun kv =>
      kv.2.map fun v => queryEscape kv.1 ++ "=" ++ queryEscape v))

/- ---------------------------------------------------------------------
   Content classification (ridgenative isBinary) and the stdlib
   collaborator net/http.DetectContentType.
   --------------------------------------------------------------------- -/

/-- Space characters trimmed by strings.TrimSpace; the ASCII whitespace set
plus NEL and NBSP (other Unicode space code points do not occur in the
media types considered here). -/
def isGoSpace (c : Char) : Bool :=
  c.toNat = 9 || c.toNat = 10 || c.toNat = 11 || c.toNat = 12 || c.toNat = 13 ||
  c.toNat = 32 || c.toNat = 133 || c.toNat = 160

def trimSpaceChars (l : List Char) : List Char :=
  ((l.dropWhile isGoSpace).reverse.dropWhile isGoSpace).reverse

/-- strings.EqualFold restricted to ASCII folding; every literal it is
compared against below is ASCII. -/
def equalFoldAscii (a b : List Char) : Bool := a.map asciiLower == b.map asciiLower

/-- The suffix of the list starting at its last occurrence of a plus
character, or none if there is no plus. -/
def afterLastPlus : List Char → Option (List Char)
  | [] => none
  | c :: t =>
    match afterLastPlus t with
    | some s => some s
    | none => if c = '+' then some (c :: t) else none

/-- ridgenative isBinary: text, application/json, application/yaml,
application/javascript, application/xml and the +json, +yaml, +xml
structured-syntax suffixes are text; everything else is binary. -/
def isBinary (contentType : String) : Bool :=
  let mediaType := trimSpaceChars (contentType.data.takeWhile (fun c => c ≠ ';'))
  let mainType := mediaType.takeWhile (fun c => c ≠ '/')
  if equalFoldAscii mainType "text".data then false
  else if equalFoldAscii mediaType "application/json".data then false
  else if equalFoldAscii mediaType "application/yaml".data then false
  else if equalFoldAscii mediaType "application/javascript".data then false
  else if equalFoldAscii mediaType "application/xml".data then false
  else
    let sfx := (afterLastPlus mediaType).getD mediaType
    if equalFoldAscii sfx "+json".data then false
    else if equalFoldAscii sfx "+yaml".data then false
    else if equalFoldAscii sfx "+xml".data then false
    else true

def asciiBytes (s : String) : Bytes := s.data.map Char.toNat

/-- Whitespace bytes skipped before sniffing (net/http isWS). -/
def sniffWS (b : Nat) : Bool := b = 9 || b = 10 || b = 12 || b = 13 || b = 32

/-- An HTML signature match: case-insensitive comparison (ASCII letters in
the signature match either case in the data) and the byte after the
signature must be a space or a greater-than sign. -/
def htmlSigMatches (sig : Bytes) (data : Bytes) : Bool :=
  if data.length < sig.length + 1 then false
  else
    (sig.zip data).all
      (fun p => (if 65 ≤ p.1 ∧ p.1 ≤ 90 then p.2 &&& 223 else p.2) = p.1) &&
    (let nb := data.getD sig.length 0
     nb = 32 || nb = 62)

def htmlSigs : List Bytes :=
  [asciiBytes "<!DOCTYPE HTML", asciiBytes "<HTML", asciiBytes "<HEAD",
   asciiBytes "<SCRIPT", asciiBytes "<IFRAME", asciiBytes "<H1", asciiBytes "<DIV",
   asciiBytes "<FONT", asciiBytes "<TABLE", asciiBytes "<A", asciiBytes "<STYLE",
   asciiBytes "<TITLE", asciiBytes "<B", asciiBytes "<BODY", asciiBytes "<BR",
   asciiBytes "<P", asciiBytes "<!--"]

/-- A masked signature match: byte-wise data AND mask equals the pattern. -/
def maskedMatch (mask pat data : Bytes) : Bool :=
  if data.length < mask.length then false
  else ((mask.zip pat).zip data).all fun p => p.2 &&& p.1.1 = p.1.2

/-- Bytes that mark the data as not plain text (net/http textSig). -/
def binaryDataByte (b : Nat) : Bool :=
  b ≤ 8 || b = 11 || (14 ≤ b && b ≤ 26) || (28 ≤ b && b ≤ 31)

/-- Model of the stdlib collaborator net/http.DetectContentType: truncate to
512 bytes, skip leading whitespace, then try the signature table in order
with plain text as the second-to-last resort. The signature classes not
exercised by this repository (fonts, audio, video, mp4, rar, ogg, avi,
icons, bmp, exe) are omitted; unmatched data falls through to the
text/binary scan exactly as in the source. -/
def detectContentType (data : Bytes) : String :=
  let data := data.take 512
  let nws := data.dropWhile sniffWS
  if htmlSigs.any (fun sig => htmlSigMatches sig nws) then "text/html; charset=utf-8"
  else if maskedMatch [255, 255, 255, 255, 255] (asciiBytes "<?xml") nws then
    "text/xml; charset=utf-8"
  else if (asciiBytes "%PDF-").isPrefixOf data then "application/pdf"
  else if (asciiBytes "%!PS-Adobe-").isPrefixOf data then "application/postscript"
  else if maskedMatch [255, 255, 0, 0] [254, 255, 0, 0] data then
    "text/plain; charset=utf-16be"
  else if maskedMatch [255, 255, 0, 0] [255, 254, 0, 0] data then
    "text/plain; charset=utf-16le"
  else if maskedMatch [255, 255, 255, 0] [239, 187, 191, 0] data then
    "text/plain; charset=utf-8"
  else if (asciiBytes "GIF87a").isPrefixOf data then "image/gif"
  else if (asciiBytes "GIF89a").isPrefixOf data then "image/gif"
  else if maskedMatch
      [255, 255, 255, 255, 0, 0, 0, 0, 255, 255, 255, 255, 255, 255]
      (asciiBytes "RIFF" ++ [0, 0, 0, 0] ++ asciiBytes "WEBPVP") data then
    "image/webp"
  else if [137, 80, 78, 71, 13, 10, 26, 10].isPrefixOf data then "image/png"
  else if [255, 216, 255].isPrefixOf data then "image/jpeg"
  else if [0, 97, 115, 109].isPrefixOf data then "application/wasm"
  else if [31, 139, 8].isPrefixOf data then "application/x-gzip"
  else if [80, 75, 3, 4].isPrefixOf data then "application/zip"
  else if nws.all (fun b => !binaryDataByte b) then "text/plain; charset=utf-8"
  else "application/octet-stream"

/- ---------------------------------------------------------------------
   Buffered response capture (responseWriter, part_005 lines 229-360).
   The bytes.Buffer is a byte list; the superfluous-WriteHeader log call
   has no observable effect and is dropped.
   --------------------------------------------------------------------- -/

structure ResponseWriter where
  w : Bytes
  isBinary : Bool
  wroteHeader : Bool
  header : Header
  statusCode : Nat
  deriving DecidableEq

def newResponseWriter : ResponseWriter :=
  { w := [], isBinary := false, wroteHeader := false, header := [], statusCode := 0 }

def ResponseWriter.writeHeader (rw : ResponseWriter) (code : Nat) : ResponseWriter :=
  if rw.wroteHeader then rw
  else { rw with statusCode := code, wroteHeader := true }

def ResponseWriter.write (rw : ResponseWriter) (data : Bytes) : ResponseWriter :=
  { rw with w := rw.w ++ data }

/-- responseWriter.encodeBody: default the status, resolve the content type
(explicit header or sniffed from the accumulated bytes), then render the
body literally or base64-encoded. Returns the body and the updated writer. -/
def ResponseWriter.encodeBody (rw : ResponseWriter) : Bytes × ResponseWriter :=
  let rw := if !rw.wroteHeader then rw.writeHeader 200 else rw
  let rw :=
    if rw.header.get "Content-Type" ≠ "" then
      { rw with isBinary := Ridgenative.isBinary (rw.header.get "Content-Type") }
    else
      let ct := detectContentType rw.w
      { rw with header := rw.header.set "Content-Type" ct,
                isBinary := Ridgenative.isBinary ct }
  if rw.isBinary then (b64EncodeBytes rw.w, rw) else (rw.w, rw)

/-- The wire response document (ridgenative response struct). The body is
the Go string's byte sequence. -/
structure LambdaResponse where
  statusCode : Nat
  headers : List (String × String)
  multiValueHeaders : Header
  body : Bytes
  isBase64Encoded : Bool
  cookies : List String
  deriving DecidableEq

/-- The folded single-value map of lambdaResponseV1: Set-Cookie keeps only
its first value (and is dropped when it has none), every other key joins
its values with a comma and a space. -/
def foldHeadersV1 (h : Header) : List (String × String) :=
  h.filterMap fun kv =>
    if kv.1 = "Set-Cookie" then
      match kv.2 with
      | [] => none
      | v :: _ => some (kv.1, v)
    else some (kv.1, String.intercalate ", " kv.2)

/-- The folded single-value map used by lambdaResponseV2 and the streaming
header block: Set-Cookie entries are skipped entirely. -/
def foldHeadersSkipSetCookie (h : Header) : List (String × String) :=
  h.filterMap fun kv =>
    if kv.1 = "Set-Cookie" then none
    else some (kv.1, String.intercalate ", " kv.2)

def ResponseWriter.lambdaResponseV1 (rw : ResponseWriter) : LambdaResponse :=
  let p := rw.encodeBody
  { statusCode := p.2.statusCode,
    headers := foldHeadersV1 p.2.header,
    multiValueHeaders := p.2.header,
    body := p.1,
    isBase64Encoded := p.2.isBinary,
    cookies := [] }

def ResponseWriter.lambdaResponseV2 (rw : ResponseWriter) : LambdaResponse :=
  let p := rw.encodeBody
  { statusCode := p.2.statusCode,
    headers := foldHeadersSkipSetCookie p.2.header,
    multiValueHeaders := [],
    body := p.1,
    isBase64Encoded := p.2.isBinary,
    cookies := p.2.header.values "Set-Cookie" }

/-- The calls a handler makes against the buffered writer, in order. -/
inductive BufOp where
  | writeHeader (code : Nat)
  | write (data : Bytes)
  deriving DecidableEq

def bufRun (rw : ResponseWriter) : List BufOp → ResponseWriter
  | [] => rw
  | .writeHeader code :: t => bufRun (rw.writeHeader code) t
  | .write data :: t => bufRun (rw.write data) t

/-- The code of the first explicit status-set call, if any. -/
def firstWriteHeaderCode : List BufOp → Option Nat
  | [] => none
  | .writeHeader code :: _ => some code
  | .write _ :: t => firstWriteHeaderCode t

/- ---------------------------------------------------------------------
   Streaming response capture (streamingResponseWriter, part_005 lines
   430-572).  The pipe plus its bufio.Writer is modelled as the byte list
   `out` (buffering changes chunk boundaries, never content); pipe writes
   cannot fail in this model, so the err field stays none but is kept to
   mirror the source's guard.
   --------------------------------------------------------------------- -/

/-- json.Marshal of the streamingResponse struct: statusCode always
present, headers and cookies omitted when empty. -/
def jsonStreamingResponse (code : Nat) (hs : List (String × String))
    (cookies : List String) : String :=
  "\x7b\"statusCode\":" ++ toString code ++
    (if hs.isEmpty then "" else ",\"headers\":" ++ jsonStringMap hs) ++
    (if cookies.isEmpty then "" else ",\"cookies\":" ++ jsonStringList cookies) ++
  "\x7d"

/-- The header block written by streamingResponseWriter.WriteHeader:
folded headers (Set-Cookie removed), the Set-Cookie values as cookies. -/
def headerBlockBytes (code : Nat) (h : Header) : Bytes :=
  bytesOfString
    (jsonStreamingResponse code (foldHeadersSkipSetCookie h) (h.values "Set-Cookie"))

def zeros8 : Bytes := [0, 0, 0, 0, 0, 0, 0, 0]

structure StreamingRW where
  out : Bytes
  wroteHeader : Bool
  header : Header
  statusCode : Nat
  errFlag : Option String
  preludeBuf : Bytes
  deriving DecidableEq

def newStreamingRW (h : Header) : StreamingRW :=
  { out := [], wroteHeader := false, header := h, statusCode := 0,
    errFlag := none, preludeBuf := [] }

def StreamingRW.hasContentType (rw : StreamingRW) : Bool :=
  rw.header.get "Content-Type" ≠ ""

def StreamingRW.writeHeaderS (rw : StreamingRW) (code : Nat) : StreamingRW :=
  if rw.wroteHeader then rw
  else if rw.errFlag.isSome then rw
  else
    let hdr :=
      if rw.hasContentType then rw.header
      else rw.header.set "Content-Type" (detectContentType rw.preludeBuf)
    { rw with
      header := hdr,
      wroteHeader := true,
      statusCode := code,
      out := rw.out ++ headerBlockBytes code hdr ++ zeros8 ++ rw.preludeBuf }

/-- streamingResponseWriter.Write: before the header is flushed, bytes fill
the 512-byte sniffing buffer (flushing when it fills or when an explicit
content type makes sniffing unnecessary); afterwards bytes go straight
through. -/
def StreamingRW.writeS (rw : StreamingRW) (data : Bytes) : StreamingRW :=
  if rw.wroteHeader then { rw with out := rw.out ++ data }
  else if rw.hasContentType then
    let rw1 := rw.writeHeaderS 200
    { rw1 with out := rw1.out ++ data }
  else
    let data0 :=
      if rw.preludeBuf.length + data.length > 512 then
        data.take (512 - rw.preludeBuf.length)
      else data
    let rw1 := { rw with preludeBuf := rw.preludeBuf ++ data0 }
    let rw2 := if rw1.preludeBuf.length = 512 then rw1.writeHeaderS 200 else rw1
    let rest := data.drop data0.length
    if rest.isEmpty then rw2 else { rw2 with out := rw2.out ++ rest }

def StreamingRW.flushS (rw : StreamingRW) : StreamingRW :=
  if !rw.wroteHeader then rw.writeHeaderS 200 else rw

/-- streamingResponseWriter.close / closeWithError: flush the header block
if it was never written; the buffered bytes are already in `out`. -/
def StreamingRW.closeS (rw : StreamingRW) : StreamingRW :=
  if !rw.wroteHeader then rw.writeHeaderS 200 else rw

/-- The calls a handler makes against the streaming writer, in order. -/
inductive StreamOp where
  | writeHeader (code : Nat)
  | write (data : Bytes)
  | flush
  deriving DecidableEq

def streamRun (rw : StreamingRW) : List StreamOp → StreamingRW
  | [] => rw
  | .writeHeader code :: t => streamRun (rw.writeHeaderS code) t
  | .write data :: t => streamRun (rw.writeS data) t
  | .flush :: t => streamRun rw.flushS t

def writtenBytes : List StreamOp → Bytes
  | [] => []
  | .write data :: t => data ++ writtenBytes t
  | _ :: t => writtenBytes t

/- ---------------------------------------------------------------------
   Error envelopes (error.go) and Go error values.
   --------------------------------------------------------------------- -/

/-- A frame of a converted stack trace (invokeResponseErrorStackFrame). -/
structure StackFrame where
  path : String
  line : Nat
  label : String
  deriving DecidableEq

/-- invokeResponseError; shouldExit carries the json tag minus and is never
serialized. -/
structure InvokeResponseError where
  message : String
  type : String
  stackTrace : List StackFrame
  shouldExit : Bool
  deriving DecidableEq

/-- Go error values reaching the runtime client: io.EOF, errors.New values,
strconv.NumError, fmt.Errorf wrapping, and the envelope type itself
(which implements error). -/
inductive GoError where
  | eof
  | errorString (msg : String)
  | numError (fn : String) (num : String) (reason : String)
  | wrapError (msg : String) (inner : GoError)
  | invokeError (e : InvokeResponseError)
  deriving DecidableEq

/-- The error's Error() text. The envelope renders through fmt %#v; its
exact Go-syntax text is irrelevant to every claim, a stable rendering of
the message field is used. -/
def GoError.render : GoError → String
  | .eof => "EOF"
  | .errorString msg => msg
  | .numError fn num reason => fn ++ ": parsing " ++ jsonString num ++ ": " ++ reason
  | .wrapError msg _ => msg
  | .invokeError e => e.message

/-- reflect-derived concrete type name as computed by getErrorType
(pointer types use the element type name). -/
def GoError.typeName : GoError → String
  | .eof => "errorString"
  | .errorString _ => "errorString"
  | .numError _ _ _ => "NumError"
  | .wrapError _ _ => "wrapError"
  | .invokeError _ => "invokeResponseError"

/-- errors.Is(err, io.EOF). -/
def GoError.isEOF : GoError → Bool
  | .eof => true
  | .wrapError _ inner => inner.isEOF
  | _ => false

/-- A value passed to panic: a string, an error value, or an envelope. -/
inductive PanicValue where
  | str (s : String)
  | err (e : GoError)
  | envelope (e : InvokeResponseError)
  deriving DecidableEq

/-- fmt.Sprint of the panic value. -/
def PanicValue.message : PanicValue → String
  | .str s => s
  | .err e => e.render
  | .envelope e => e.message

/-- getErrorType of the panic value. -/
def PanicValue.typeName : PanicValue → String
  | .str _ => "string"
  | .err e => e.typeName
  | .envelope _ => "invokeResponseError"

def PanicValue.isEnvelope : PanicValue → Bool
  | .envelope _ => true
  | _ => false

/-- lambdaPanicResponse (error.go lines 126-137). The captured call stack
is runtime input, passed in already converted by convertStack. -/
def lambdaPanicResponse (v : PanicValue) (stack : List StackFrame) : InvokeResponseError :=
  match v with
  | .envelope ive => ive
  | _ =>
    { message := v.message, type := v.typeName, stackTrace := stack, shouldExit := true }

/-- lambdaErrorResponse (error.go lines 139-148): envelopes pass through,
anything else gets message and concrete type name, no stack, no exit. -/
def lambdaErrorResponse (invokeError : GoError) : InvokeResponseError :=
  match invokeError with
  | .invokeError ive => ive
  | e => { message := e.render, type := e.typeName, stackTrace := [], shouldExit := false }

/-- json.Marshal of the envelope: errorMessage, errorType, stackTrace with
omitempty, ShouldExit never serialized. -/
def marshalInvokeError (e : InvokeResponseError) : String :=
  "\x7b\"errorMessage\":" ++ jsonString e.message ++
  ",\"errorType\":" ++ jsonString e.type ++
  (if e.stackTrace.isEmpty then ""
   else ",\"stackTrace\":[" ++
     String.intercalate ","
       (e.stackTrace.map fun f =>
         "\x7b\"path\":" ++ jsonString f.path ++ ",\"line\":" ++ toString f.line ++
         ",\"label\":" ++ jsonString f.label ++ "\x7d") ++ "]") ++
  "\x7d"

/- ---------------------------------------------------------------------
   strconv.ParseInt (base 10, 64-bit) and parseDeadline.
   --------------------------------------------------------------------- -/

def digitVal (c : Char) : Option Nat :=
  if 48 ≤ c.toNat ∧ c.toNat ≤ 57 then some (c.toNat - 48) else none

def digitsVal : List Char → Option Nat
  | [] => none
  | l => l.foldl (fun acc c => match acc, digitVal c with
      | some n, some d => some (n * 10 + d)
      | _, _ => none) (some 0)

/-- Model of strconv.ParseInt(s, 10, 64): optional sign, decimal digits,
64-bit range check. -/
def parseInt64 (s : String) : Except GoError Int :=
  let syntaxErr := GoError.numError "strconv.ParseInt" s "invalid syntax"
  let rangeErr := GoError.numError "strconv.ParseInt" s "value out of range"
  let (neg, digits) :=
    match s.data with
    | '-' :: t => (true, t)
    | '+' :: t => (false, t)
    | l => (false, l)
  match digitsVal digits with
  | none => .error syntaxErr
  | some n =>
    if neg then
      if n ≤ 2 ^ 63 then .ok (-(n : Int)) else .error rangeErr
    else
      if n < 2 ^ 63 then .ok (n : Int) else .error rangeErr

def headerAWSRequestID : String := "Lambda-Runtime-Aws-Request-Id"
def headerDeadlineMS : String := "Lambda-Runtime-Deadline-Ms"
def headerTraceID : String := "Lambda-Runtime-Trace-Id"
def trailerLambdaErrorType : String := "Lambda-Runtime-Function-Error-Type"
def trailerLambdaErrorBody : String := "Lambda-Runtime-Function-Error-Body"

/-- An invocation as consumed by handleInvoke. The payload field holds the
result of json.Unmarshal on the raw payload bytes (the JSON decoder is
modelled by its outcome). The deadline is the parsed millisecond epoch. -/
structure InvokeRec (Request : Type) where
  id : String
  payload : Except GoError Request
  headers : Header

def parseDeadline {Request : Type} (invoke : InvokeRec Request) : Except GoError Int :=
  match parseInt64 (Header.get invoke.headers headerDeadlineMS) with
  | .error e =>
    .error (GoError.wrapError ("ridgenative: failed to parse deadline: " ++ e.render) e)
  | .ok ms => .ok ms

/- ---------------------------------------------------------------------
   The inbound event document (ridgenative request struct, part_005).
   --------------------------------------------------------------------- -/

structure RequestContextHTTP where
  method : String
  path : String
  sourceIP : String
  deriving DecidableEq

structure RequestIdentity where
  sourceIP : String
  deriving DecidableEq

structure RequestContext where
  identity : RequestIdentity
  http : Option RequestContextHTTP
  deriving DecidableEq

structure Request where
  httpMethod : String
  path : String
  queryStringParameters : List (String × String)
  multiValueQueryStringParameters : List (String × List String)
  headers : List (String × String)
  multiValueHeaders : List (String × List String)
  isBase64Encoded : Bool
  body : String
  requestContext : RequestContext
  version : String
  rawPath : String
  rawQueryString : String
  cookies : List String
  deriving DecidableEq

def emptyRequest : Request :=
  { httpMethod := "", path := "", queryStringParameters := [],
    multiValueQueryStringParameters := [], headers := [], multiValueHeaders := [],
    isBase64Encoded := false, body := "",
    requestContext := { identity := { sourceIP := "" }, http := none },
    version := "", rawPath := "", rawQueryString := "", cookies := [] }

/- ---------------------------------------------------------------------
   Event adapter, V1 shape (lambdaFunction.httpRequestV1, part_005 lines
   95-157): header map, query values and request URI.
   --------------------------------------------------------------------- -/

/-- The header map built for a V1 event: the multi-value map (keys
canonicalized) when it is non-empty, otherwise the singular map with each
value wrapped in a one-element list. -/
def httpRequestV1Headers (r : Request) : Header :=
  if !r.multiValueHeaders.isEmpty then
    buildMap (r.multiValueHeaders.map fun kv => (canonicalMIMEHeaderKey kv.1, kv.2))
  else
    buildMap (r.headers.map fun kv => (canonicalMIMEHeaderKey kv.1, [kv.2]))

/-- The url.Values built for a V1 event: the multi-value query map when
non-empty, else the singular query map, else empty. -/
def httpRequestV1Query (r : Request) : List (String × List String) :=
  if !r.multiValueQueryStringParameters.isEmpty then
    buildMap r.multiValueQueryStringParameters
  else if !r.queryStringParameters.isEmpty then
    buildMap (r.queryStringParameters.map fun kv => (kv.1, [kv.2]))
  else []

/-- The request URI of a V1 event: the path, plus the encoded query when
any values exist. -/
def httpRequestV1URI (r : Request) : String :=
  let values := httpRequestV1Query r
  if !values.isEmpty then r.path ++ "?" ++ urlValuesEncode values else r.path

/- ---------------------------------------------------------------------
   Runtime API client (runtime_api_client.go).  HTTP exchanges with the
   control plane are modelled by their observable outcomes: a poll either
   fails at the transport or yields a status, headers and body (with a
   possible body-read failure); a POST either is accepted (none) or fails
   with an error (some).  The posted documents are recorded as events.
   --------------------------------------------------------------------- -/

structure RuntimeAPIClient where
  baseURL : String
  deriving DecidableEq

def newRuntimeAPIClient (address : String) : RuntimeAPIClient :=
  { baseURL := "http://" ++ address ++ "/2018-06-01/runtime/invocation/" }

inductive PollResult where
  | connError (e : GoError)
  | success (status : Nat) (headers : Header) (body : Bytes) (readErr : Option GoError)
  deriving DecidableEq

structure InvokeRaw where
  id : String
  payload : Bytes
  headers : Header
  deriving DecidableEq

/-- runtimeAPIClient.next (lines 75-104): transport failure, a status other
than 200 OK, or a body-read failure is an error; otherwise the invoke is
built from the response headers and body. -/
def RuntimeAPIClient.next (c : RuntimeAPIClient) (p : PollResult) :
    Except GoError InvokeRaw :=
  match p with
  | .connError e =>
    .error (.wrapError ("ridgenative: failed to get the next invoke: " ++ e.render) e)
  | .success status headers body readErr =>
    if status ≠ 200 then
      .error (.errorString ("ridgenative: failed to GET " ++ c.baseURL ++
        "next: got unexpected status code: " ++ toString status))
    else
      match readErr with
      | some e =>
        .error (.wrapError ("ridgenative: failed to read the invoke payload: " ++ e.render) e)
      | none =>
        .ok { id := Header.get headers headerAWSRequestID, payload := body,
              headers := headers }

/-- Outcomes of the two per-invocation POSTs (none means 202 Accepted). -/
structure Ctrl where
  errorPost : Option GoError
  responsePost : Option GoError
  deriving DecidableEq

inductive PostEvent where
  | errorPost (id : String) (env : InvokeResponseError)
  | responsePost (id : String) (resp : LambdaResponse)
  deriving DecidableEq

/-- What the handler does with the canonical request. -/
inductive HandlerOutcome where
  | ok (resp : LambdaResponse)
  | err (e : GoError)
  | panics (v : PanicValue) (stack : List StackFrame)

/-- callBytesHandlerFunc (part_002 lines 15-31): a panic is recovered into
a lambdaPanicResponse envelope error; unmarshal and handler errors are
returned as-is.  json.Marshal of the response struct cannot fail (it has
no functions or channels) and is modelled as total. -/
def callBytesHandlerFunc (payload : Except GoError Request)
    (h : Request → HandlerOutcome) : Except GoError LambdaResponse :=
  match payload with
  | .error e => .error e
  | .ok req =>
    match h req with
    | .panics v stack => .error (.invokeError (lambdaPanicResponse v stack))
    | .err e => .error e
    | .ok resp => .ok resp

/-- reportFailure (lines 180-190): marshal the envelope and POST it to the
per-invocation error endpoint; a rejected POST is wrapped and returned. -/
def reportFailure (ctrl : Ctrl) (id : String) (env : InvokeResponseError) :
    Option GoError × List PostEvent :=
  match ctrl.errorPost with
  | none => (none, [.errorPost id env])
  | some e =>
    (some (.wrapError
      ("ridgenative: unexpected error occurred when sending the function error to the API: "
        ++ e.render) e),
     [.errorPost id env])

/-- handleInvoke (lines 107-141): deadline parse failure is reported and is
non-fatal; a handler error is reported, and only an envelope demanding
exit makes the result non-nil; a successful response is POSTed to the
response endpoint. -/
def handleInvoke (ctrl : Ctrl) (invoke : InvokeRec Request)
    (h : Request → HandlerOutcome) : Option GoError × List PostEvent :=
  match parseDeadline invoke with
  | .error e => reportFailure ctrl invoke.id (lambdaErrorResponse e)
  | .ok _deadline =>
    match callBytesHandlerFunc invoke.payload h with
    | .error e =>
      let invokeErr := lambdaErrorResponse e
      let r := reportFailure ctrl invoke.id invokeErr
      match r.1 with
      | some e2 => (some e2, r.2)
      | none =>
        if invokeErr.shouldExit then
          (some (.errorString
            "calling the handler function resulted in a panic, the process should exit"), r.2)
        else (none, r.2)
    | .ok resp =>
      match ctrl.responsePost with
      | none => (none, [.responsePost invoke.id resp])
      | some e =>
        (some (.wrapError
          ("unexpected error occurred when sending the function functionResponse to the API: "
            ++ e.render) e),
         [.responsePost invoke.id resp])

/-- The invocation loop (start, lines 62-72) observed over a finite script
of poll outcomes: a next() error or a fatal handleInvoke error stops the
loop and is returned; the end of the script ends the observation. -/
def startRun (c : RuntimeAPIClient) (dec : Bytes → Except GoError Request)
    (h : Request → HandlerOutcome) (ctrl : Ctrl) :
    List PollResult → Option GoError × List PostEvent
  | [] => (none, [])
  | p :: rest =>
    match c.next p with
    | .error e => (some e, [])
    | .ok raw =>
      let r := handleInvoke ctrl
        { id := raw.id, payload := dec raw.payload, headers := raw.headers } h
      match r.1 with
      | some e => (some e, r.2)
      | none =>
        let r2 := startRun c dec h ctrl rest
        (r2.1, r.2 ++ r2.2)

/- ---------------------------------------------------------------------
   errorCapturingReader (runtime_api_client.go lines 274-315).
   --------------------------------------------------------------------- -/

def base64OfString (s : String) : String :=
  String.mk ((b64EncodeBytes (bytesOfString s)).map Char.ofNat)

structure ErrorCapturingReader where
  err : Option GoError
  trailer : Header
  deriving DecidableEq

def newErrorCapturingReader : ErrorCapturingReader := { err := none, trailer := [] }

/-- One Read call of errorCapturingReader, given the underlying reader's
result (bytes read, error) for this call.  The source's condition is
err != nil && errors.Is(err, io.EOF): only then are the trailer fields
set and the error latched. -/
def ecRead (r : ErrorCapturingReader) (res : Bytes × Option GoError) :
    ErrorCapturingReader × (Bytes × Option GoError) :=
  match r.err with
  | some e => (r, ([], some e))
  | none =>
    match res with
    | (n, none) => (r, (n, none))
    | (n, some e) =>
      if e.isEOF then
        let lambdaErr := lambdaErrorResponse e
        let body := marshalInvokeError lambdaErr
        ({ err := some e,
           trailer :=
             Header.set
               (Header.set r.trailer trailerLambdaErrorType lambdaErr.type)
               trailerLambdaErrorBody (base64OfString body) },
         (n, some e))
      else (r, (n, some e))

def exceptIsOk {ε α : Type} : Except ε α → Bool
  | .ok _ => true
  | .error _ => false

def exceptDecEq {ε α : Type} [DecidableEq ε] [DecidableEq α] :
    DecidableEq (Except ε α)
  | .ok x, .ok y =>
    if h : x = y then .isTrue (by rw [h]) else .isFalse (fun hc => h (by injection hc))
  | .error x, .error y =>
    if h : x = y then .isTrue (by rw [h]) else .isFalse (fun hc => h (by injection hc))
  | .ok _, .error _ => .isFalse (fun hc => by injection hc)
  | .error _, .ok _ => .isFalse (fun hc => by injection hc)

instance {ε α : Type} [DecidableEq ε] [DecidableEq α] : DecidableEq (Except ε α) :=
  exceptDecEq

def GoError.isEnvelopeErr : GoError → Bool
  | .invokeError _ => true
  | _ => false

/-- A transport-level poll failure as the code delimits it: a connection
error, a response status other than 200, or a failure reading the poll
response body. -/
def transportFailure : PollResult → Prop
  | .connError _ => True
  | .success status _ _ readErr => status ≠ 200 ∨ readErr ≠ none

/-- Invariant tying a streaming writer to the bytes the handler has written
so far: before the flush everything sits in the sniffing buffer, after the
flush the output is the header block, the delimiter and the body bytes. -/
def streamStateOk (w : Bytes) (s : StreamingRW) : Prop :=
  s.errFlag = none ∧
    ((s.wroteHeader = false ∧ s.out = [] ∧ s.preludeBuf = w ∧ w.length < 512) ∨
     (s.wroteHeader = true ∧
      s.out = headerBlockBytes s.statusCode s.header ++ zeros8 ++ w))

/- ---------------------------------------------------------------------
   Helper lemmas.
   --------------------------------------------------------------------- -/

theorem assocLookup_eq_none_of_not_mem {α : Type} (l : List (String × α)) (k : String)
    (h : k ∉ l.map Prod.fst) : assocLookup l k = none := by
  induction l with
  | nil => rfl
  | cons kv t ih =>
    simp only [List.map_cons, List.mem_cons, not_or] at h
    have hne : kv.1 ≠ k := fun he => h.1 he.symm
    simp [assocLookup, hne, ih h.2]

theorem assocLookup_upsert {α : Type} (l : List (String × α)) (k k' : String) (v : α) :
    assocLookup (assocUpsert l k' v) k = if k' = k then some v else assocLookup l k := by
  induction l with
  | nil => by_cases h : k' = k <;> simp [assocUpsert, assocLookup, h]
  | cons kv t ih =>
    simp only [assocUpsert]
    by_cases h1 : kv.1 = k'
    · subst h1
      by_cases h2 : kv.1 = k <;> simp [assocLookup, h2]
    · simp only [h1, if_false]
      by_cases h2 : k' = k
      · subst h2
        have hne : kv.1 ≠ k' := h1
        simp [assocLookup, hne, ih]
      · simp [assocLookup, ih, h2]

theorem assocLookup_foldl_upsert {α : Type} (l : List (String × α))
    (acc : List (String × α)) (k : String) :
    assocLookup (l.foldl (fun acc kv => assocUpsert acc kv.1 kv.2) acc) k
      = ((lookupLast l k).orElse (fun _ => assocLookup acc k)) := by
  induction l generalizing acc with
  | nil => simp [lookupLast, Option.orElse]
  | cons kv t ih =>
    simp only [List.foldl_cons, ih, lookupLast]
    cases h : lookupLast t k with
    | some v => simp [Option.orElse]
    | none =>
      by_cases h1 : kv.1 = k <;>
        simp [Option.orElse, assocLookup_upsert, h1]

theorem lookupLast_eq_lookup_of_nodup {α : Type} (l : List (String × α)) (k : String)
    (h : (l.map Prod.fst).Nodup) : lookupLast l k = assocLookup l k := by
  induction l with
  | nil => rfl
  | cons kv t ih =>
    simp only [List.map_cons, List.nodup_cons] at h
    simp only [lookupLast, assocLookup, ih h.2]
    by_cases h1 : kv.1 = k
    · subst h1
      simp [assocLookup_eq_none_of_not_mem t kv.1 h.1]
    · cases assocLookup t k <;> simp [h1]

theorem assocLookup_buildMap_of_nodup {α : Type} (l : List (String × α)) (k : String)
    (h : (l.map Prod.fst).Nodup) : assocLookup (buildMap l) k = assocLookup l k := by
  unfold buildMap
  rw [assocLookup_foldl_upsert, lookupLast_eq_lookup_of_nodup l k h]
  cases assocLookup l k <;> simp [Option.orElse, assocLookup]

theorem assocUpsert_eq_append_of_lookup_none {α : Type} (l : List (String × α))
    (k : String) (v : α) (h : assocLookup l k = none) :
    assocUpsert l k v = l ++ [(k, v)] := by
  induction l with
  | nil => rfl
  | cons kv t ih =>
    simp only [assocLookup] at h
    by_cases he : kv.1 = k
    · simp [he] at h
    · simp only [he, if_neg, if_false] at h
      simp [assocUpsert, he, ih h]

theorem assocLookup_append {α : Type} (a b : List (String × α)) (k : String) :
    assocLookup (a ++ b) k
      = ((assocLookup a k).orElse (fun _ => assocLookup b k)) := by
  induction a with
  | nil => simp [assocLookup, Option.orElse]
  | cons kv t ih =>
    by_cases he : kv.1 = k <;> simp [assocLookup, he, ih, Option.orElse]

theorem buildMap_eq_self_of_nodup {α : Type} (l : List (String × α))
    (h : (l.map Prod.fst).Nodup) : buildMap l = l := by
  unfold buildMap
  suffices hgen : ∀ (l acc : List (String × α)), (l.map Prod.fst).Nodup →
      (∀ kv ∈ l, assocLookup acc kv.1 = none) →
      l.foldl (fun acc kv => assocUpsert acc kv.1 kv.2) acc = acc ++ l by
    simpa using hgen l [] h (by intro kv _; rfl)
  intro l
  induction l with
  | nil => intro acc _ _; simp
  | cons kv t ih =>
    intro acc hnd hacc
    simp only [List.map_cons, List.nodup_cons] at hnd
    simp only [List.foldl_cons]
    rw [assocUpsert_eq_append_of_lookup_none acc kv.1 kv.2 (hacc kv (by simp))]
    rw [ih (acc ++ [(kv.1, kv.2)]) hnd.2 ?_]
    · simp
    · intro kv' hkv'
      have hne : kv.1 ≠ kv'.1 := by
        intro he
        exact hnd.1 (he ▸ List.mem_map_of_mem Prod.fst hkv')
      rw [assocLookup_append]
      rw [hacc kv' (by simp [hkv'])]
      simp [Option.orElse, assocLookup, hne]

theorem b64dec_b64code (n : Nat) (h : n < 64) : b64dec (b64code n) = some n := by
  interval_cases n <;> decide

theorem b64code_ne_pad (n : Nat) (h : n < 64) : b64code n ≠ 61 := by
  interval_cases n <;> decide

theorem b64_roundtrip : ∀ bs : Bytes, (∀ x ∈ bs, x < 256) →
    b64DecodeBytes (b64EncodeBytes bs) = some bs := by
  intro bs
  induction bs using b64EncodeBytes.induct with
  | case1 => intro _; simp [b64EncodeBytes, b64DecodeBytes]
  | case2 a =>
    intro hlt
    have ha : a < 256 := hlt a (by simp)
    have h1 : a / 4 < 64 := by omega
    have h2 : a % 4 * 16 < 64 := by omega
    have hm : a % 4 * 16 % 16 = 0 := by omega
    simp [b64EncodeBytes, b64DecodeBytes, b64dec_b64code _ h1, b64dec_b64code _ h2, hm]
    omega
  | case3 a b =>
    intro hlt
    have ha : a < 256 := hlt a (by simp)
    have hb : b < 256 := hlt b (by simp)
    have h1 : a / 4 < 64 := by omega
    have h2 : a % 4 * 16 + b / 16 < 64 := by omega
    have h3 : b % 16 * 4 < 64 := by omega
    have hne : b64code (b % 16 * 4) ≠ 61 := b64code_ne_pad _ h3
    have hm : b % 16 * 4 % 4 = 0 := by omega
    simp [b64EncodeBytes, b64DecodeBytes, b64dec_b64code _ h1, b64dec_b64code _ h2,
      b64dec_b64code _ h3, hne, hm]
    omega
  | case4 a b c rest ih =>
    intro hlt
    have ha : a < 256 := hlt a (by simp)
    have hb : b < 256 := hlt b (by simp)
    have hc : c < 256 := hlt c (by simp)
    have h1 : a / 4 < 64 := by omega
    have h2 : a % 4 * 16 + b / 16 < 64 := by omega
    have h3 : b % 16 * 4 + c / 64 < 64 := by omega
    have h4 : c % 64 < 64 := by omega
    have hrest : ∀ x ∈ rest, x < 256 := by
      intro x hx
      exact hlt x (by simp [hx])
    have hne1 : b64code (b % 16 * 4 + c / 64) ≠ 61 := b64code_ne_pad _ h3
    have hne2 : b64code (c % 64) ≠ 61 := b64code_ne_pad _ h4
    simp [b64EncodeBytes, b64DecodeBytes, b64dec_b64code _ h1, b64dec_b64code _ h2,
      b64dec_b64code _ h3, b64dec_b64code _ h4, hne1, hne2, ih hrest]
    omega

/- ---------------------------------------------------------------------
   Claim theorems.
   --------------------------------------------------------------------- -/

/-- C1: the code diverges from the claim.  errorCapturingReader.Read guards
the trailer capture with errors.Is(err, io.EOF) instead of its negation,
so a genuine mid-stream error (here an ordinary error value, as produced
by CloseWithError in the repo's own test) leaves the trailer empty, while
a plain end-of-stream (io.EOF) attaches both Lambda-Runtime-Function-Error
trailer fields, populated from an envelope for EOF itself. -/
theorem c1_trailer_condition_inverted :
    ((ecRead newErrorCapturingReader ([], some (.errorString "some errors"))).1.trailer
        = []) ∧
    ((ecRead newErrorCapturingReader ([], some .eof)).1.trailer
        = [(trailerLambdaErrorType, ["errorString"]),
           (trailerLambdaErrorBody,
            ["eyJlcnJvck1lc3NhZ2UiOiJFT0YiLCJlcnJvclR5cGUiOiJlcnJvclN0cmluZyJ9"])]) ∧
    base64OfString "\x7b\"errorMessage\":\"EOF\",\"errorType\":\"errorString\"\x7d"
      = "eyJlcnJvck1lc3NhZ2UiOiJFT0YiLCJlcnJvclR5cGUiOiJlcnJvclN0cmluZyJ9" := by
  refine ⟨rfl, ?_, ?_⟩ <;> decide

/-- C10: once wroteHeader is set on either response writer, a further
WriteHeader call is a no-op: the whole state — status code, header map and
emitted bytes (so the streaming header block is never written twice) — is
unchanged. -/
theorem c10_second_writeHeader_noop (rw : ResponseWriter) (srw : StreamingRW)
    (c c' : Nat) (hb : rw.wroteHeader = true) (hs : srw.wroteHeader = true) :
    rw.writeHeader c = rw ∧ srw.writeHeaderS c' = srw := by
  constructor
  · simp [ResponseWriter.writeHeader, hb]
  · simp [StreamingRW.writeHeaderS, hs]

theorem c10_second_writeHeader_noop_witness :
    (({ w := [120], isBinary := false, wroteHeader := true, header := [],
        statusCode := 302 } : ResponseWriter).writeHeader 500
      = { w := [120], isBinary := false, wroteHeader := true, header := [],
          statusCode := 302 }) ∧
    (({ out := [1, 2], wroteHeader := true, header := [], statusCode := 200,
        errFlag := none, preludeBuf := [] } : StreamingRW).writeHeaderS 404
      = { out := [1, 2], wroteHeader := true, header := [], statusCode := 200,
          errFlag := none, preludeBuf := [] }) :=
  c10_second_writeHeader_noop _ _ 500 404 rfl rfl

/-- C9 as stated is false on the code: writing the body first does not fix
the status code — a WriteHeader call made after the first body write still
changes the rendered statusCode (here to 500, where the claim demands the
default 200 fixed by the write). -/
theorem c9_counterexample :
    ((bufRun newResponseWriter [.write [120], .writeHeader 500]).lambdaResponseV1).statusCode
        = 500 ∧
    ((bufRun newResponseWriter [.write [120]]).lambdaResponseV1).statusCode = 200 ∧
    (500 : Nat) ≠ 200 := by
  refine ⟨?_, ?_, by decide⟩ <;> decide

/-- C9 amended: for a buffered response only the first explicit WriteHeader
call fixes the rendered status code, wherever it occurs in the call
sequence (body writes neither fix nor change it), and if the handler never
sets a status the rendered statusCode is 200. -/
theorem c9_first_writeHeader_fixes_status (ops : List BufOp) :
    ((bufRun newResponseWriter ops).lambdaResponseV1).statusCode
      = (firstWriteHeaderCode ops).getD 200 := by
  have hrun : ∀ (ops : List BufOp) (rw : ResponseWriter),
      (rw.wroteHeader = true →
        (bufRun rw ops).wroteHeader = true ∧ (bufRun rw ops).statusCode = rw.statusCode) ∧
      (rw.wroteHeader = false →
        (match firstWriteHeaderCode ops with
         | some c => (bufRun rw ops).wroteHeader = true ∧ (bufRun rw ops).statusCode = c
         | none => (bufRun rw ops).wroteHeader = false ∧
             (bufRun rw ops).statusCode = rw.statusCode)) := by
    intro ops
    induction ops with
    | nil => intro rw; constructor <;> intro h <;> simp [bufRun, firstWriteHeaderCode, h]
    | cons op t ih =>
      intro rw
      cases op with
      | writeHeader c =>
        constructor
        · intro h
          have hwh : rw.writeHeader c = rw := by simp [ResponseWriter.writeHeader, h]
          simp only [bufRun, hwh]
          exact (ih rw).1 h
        · intro h
          have hw : (rw.writeHeader c).wroteHeader = true := by
            simp [ResponseWriter.writeHeader, h]
          have hsc : (rw.writeHeader c).statusCode = c := by
            simp [ResponseWriter.writeHeader, h]
          have := ((ih (rw.writeHeader c)).1) hw
          simp only [firstWriteHeaderCode, bufRun]
          exact ⟨this.1, by rw [this.2, hsc]⟩
      | write data =>
        constructor
        · intro h
          have hw : (rw.write data).wroteHeader = rw.wroteHeader := rfl
          have := (ih (rw.write data)).1 (by rw [hw, h])
          simpa [bufRun, ResponseWriter.write] using this
        · intro h
          have := (ih (rw.write data)).2 (by simp [ResponseWriter.write, h])
          simpa [bufRun, firstWriteHeaderCode, ResponseWriter.write] using this
  have hsnd : ∀ rw : ResponseWriter,
      (rw.encodeBody).2.statusCode = (if rw.wroteHeader then rw.statusCode else 200) := by
    intro rw
    cases hwh : rw.wroteHeader <;>
      simp only [ResponseWriter.encodeBody, ResponseWriter.writeHeader, hwh,
        Bool.not_true, Bool.not_false, ite_true, ite_false, Bool.false_eq_true,
        if_false, if_true] <;>
      split <;> split <;> rfl
  have hstatus : ∀ rw : ResponseWriter,
      ((rw.lambdaResponseV1).statusCode) = if rw.wroteHeader then rw.statusCode else 200 := by
    intro rw
    rw [show (rw.lambdaResponseV1).statusCode = (rw.encodeBody).2.statusCode from rfl]
    exact hsnd rw
  rw [hstatus]
  have hnew : newResponseWriter.wroteHeader = false := rfl
  have := (hrun ops newResponseWriter).2 hnew
  cases hfw : firstWriteHeaderCode ops with
  | some c =>
    rw [hfw] at this
    simp [this.1, this.2]
  | none =>
    rw [hfw] at this
    simp [this.1]

/-- C7 as stated is false on the code: next() treats every status other
than 200 as a failure, so a 202 response — a 2xx status with no connection
error — still yields an error instead of an Invocation. -/
theorem c7_counterexample :
    exceptIsOk ((newRuntimeAPIClient "127.0.0.1:9001").next (.success 202 [] [] none))
        = false ∧
    200 ≤ 202 ∧ 202 < 300 := by
  refine ⟨?_, by decide, by decide⟩
  decide

/-- C7 amended: next() returns an error exactly for a transport failure —
a connection error, a response status other than 200, or a body-read
failure; such an error propagates out of the invocation loop with nothing
posted to the control plane; otherwise next() returns the Invocation built
from the poll response's headers and body. -/
theorem c7_next_transport_failures (c : RuntimeAPIClient)
    (dec : Bytes → Except GoError Request) (h : Request → HandlerOutcome)
    (ctrl : Ctrl) (p : PollResult) (rest : List PollResult) :
    (exceptIsOk (c.next p) = false ↔ transportFailure p) ∧
    (∀ e, c.next p = .error e → startRun c dec h ctrl (p :: rest) = (some e, [])) ∧
    (∀ (headers : Header) (body : Bytes),
      c.next (.success 200 headers body none)
        = .ok { id := Header.get headers headerAWSRequestID, payload := body,
                headers := headers }) := by
  refine ⟨?_, ?_, ?_⟩
  · cases p with
    | connError e => simp [RuntimeAPIClient.next, exceptIsOk, transportFailure]
    | success status headers body readErr =>
      by_cases hst : status = 200
      · subst hst
        cases readErr <;>
          simp [RuntimeAPIClient.next, exceptIsOk, transportFailure]
      · simp [RuntimeAPIClient.next, exceptIsOk, transportFailure, hst]
  · intro e he
    simp [startRun, he]
  · intro headers body
    simp [RuntimeAPIClient.next]

theorem c7_next_transport_failures_witness :
    startRun (newRuntimeAPIClient "127.0.0.1:9001")
        (fun _ => .error .eof) (fun _ => .err .eof) ⟨none, none⟩
        [.connError (.errorString "connection refused")]
      = (some (.wrapError "ridgenative: failed to get the next invoke: connection refused"
          (.errorString "connection refused")), []) :=
  (c7_next_transport_failures (newRuntimeAPIClient "127.0.0.1:9001")
      (fun _ => .error .eof) (fun _ => .err .eof) ⟨none, none⟩
      (.connError (.errorString "connection refused")) []).2.1 _ rfl

/-- C8: if the millisecond-epoch deadline header fails to parse as an
integer, handleInvoke immediately posts a failure envelope built from the
parse error (message and type from the wrapped error, no stack trace, no
exit request) to the per-invocation error endpoint, returns nil when that
POST is accepted, and never invokes the handler (its result does not
depend on the handler at all). -/
theorem c8_deadline_parse_failure (ctrl : Ctrl) (inv : InvokeRec Request)
    (h h' : Request → HandlerOutcome) (pe : GoError)
    (hp : parseInt64 (Header.get inv.headers headerDeadlineMS) = .error pe)
    (hpost : ctrl.errorPost = none) :
    handleInvoke ctrl inv h
        = (none, [.errorPost inv.id (lambdaErrorResponse
            (.wrapError ("ridgenative: failed to parse deadline: " ++ pe.render) pe))]) ∧
    handleInvoke ctrl inv h = handleInvoke ctrl inv h' ∧
    (lambdaErrorResponse
        (.wrapError ("ridgenative: failed to parse deadline: " ++ pe.render) pe)).stackTrace
      = [] ∧
    (lambdaErrorResponse
        (.wrapError ("ridgenative: failed to parse deadline: " ++ pe.render) pe)).shouldExit
      = false ∧
    (lambdaErrorResponse
        (.wrapError ("ridgenative: failed to parse deadline: " ++ pe.render) pe)).message
      = "ridgenative: failed to parse deadline: " ++ pe.render ∧
    (lambdaErrorResponse
        (.wrapError ("ridgenative: failed to parse deadline: " ++ pe.render) pe)).type
      = "wrapError" := by
  have hd : parseDeadline inv
      = .error (.wrapError ("ridgenative: failed to parse deadline: " ++ pe.render) pe) := by
    simp [parseDeadline, hp]
  refine ⟨?_, ?_, rfl, rfl, rfl, rfl⟩ <;>
    simp [handleInvoke, hd, reportFailure, hpost]

theorem c8_deadline_parse_failure_witness :
    handleInvoke ⟨none, none⟩
        ⟨"request-id", .ok emptyRequest, [("Lambda-Runtime-Deadline-Ms", ["abc"])]⟩
        (fun _ => .err .eof)
      = (none, [.errorPost "request-id" (lambdaErrorResponse
          (.wrapError ("ridgenative: failed to parse deadline: "
              ++ (GoError.numError "strconv.ParseInt" "abc" "invalid syntax").render)
            (.numError "strconv.ParseInt" "abc" "invalid syntax")))]) :=
  (c8_deadline_parse_failure ⟨none, none⟩
    ⟨"request-id", .ok emptyRequest, [("Lambda-Runtime-Deadline-Ms", ["abc"])]⟩
    (fun _ => .err .eof) (fun _ => .err .eof)
    (GoError.numError "strconv.ParseInt" "abc" "invalid syntax")
    (by decide) rfl).1

/-- C2: a handler panic with a non-envelope value v is reported as an
envelope whose errorMessage is v rendered as a string, whose errorType is
v's concrete type name and whose ShouldExit is true, after which
handleInvoke returns a non-nil error so the invocation loop stops; an
ordinary handler error is reported with ShouldExit false and handleInvoke
returns nil so the loop continues. -/
theorem c2_panic_exits_error_continues (ctrl : Ctrl) (inv : InvokeRec Request)
    (h1 h2 : Request → HandlerOutcome) (req : Request) (dl : Int)
    (v : PanicValue) (stack : List StackFrame) (e : GoError)
    (hpost : ctrl.errorPost = none)
    (hdl : parseDeadline inv = .ok dl)
    (hreq : inv.payload = .ok req)
    (hv : v.isEnvelope = false)
    (he : e.isEnvelopeErr = false)
    (hp : h1 req = .panics v stack)
    (herr : h2 req = .err e) :
    (lambdaPanicResponse v stack).message = v.message ∧
    (lambdaPanicResponse v stack).type = v.typeName ∧
    (lambdaPanicResponse v stack).shouldExit = true ∧
    handleInvoke ctrl inv h1
      = (some (.errorString
          "calling the handler function resulted in a panic, the process should exit"),
         [.errorPost inv.id (lambdaPanicResponse v stack)]) ∧
    (lambdaErrorResponse e).shouldExit = false ∧
    handleInvoke ctrl inv h2 = (none, [.errorPost inv.id (lambdaErrorResponse e)]) := by
  have henv : lambdaPanicResponse v stack
      = { message := v.message, type := v.typeName, stackTrace := stack,
          shouldExit := true } := by
    cases v with
    | str s => rfl
    | err e0 => rfl
    | envelope e0 => simp [PanicValue.isEnvelope] at hv
  have hee : lambdaErrorResponse e
      = { message := e.render, type := e.typeName, stackTrace := [],
          shouldExit := false } := by
    cases e <;> first
      | rfl
      | simp [GoError.isEnvelopeErr] at he
  refine ⟨by rw [henv], by rw [henv], by rw [henv], ?_, by rw [hee], ?_⟩
  · simp [handleInvoke, hdl, callBytesHandlerFunc, hreq, hp, reportFailure, hpost,
      lambdaErrorResponse, henv]
  · simp [handleInvoke, hdl, callBytesHandlerFunc, hreq, herr, reportFailure, hpost, hee]

theorem c2_panic_exits_error_continues_witness :
    (lambdaPanicResponse (.str "boom") []).message = "boom" ∧
    (lambdaPanicResponse (.str "boom") []).type = "string" ∧
    (lambdaPanicResponse (.str "boom") []).shouldExit = true ∧
    handleInvoke ⟨none, none⟩
        ⟨"request-id", .ok emptyRequest, [("Lambda-Runtime-Deadline-Ms", ["1000"])]⟩
        (fun _ => .panics (.str "boom") [])
      = (some (.errorString
          "calling the handler function resulted in a panic, the process should exit"),
         [.errorPost "request-id" (lambdaPanicResponse (.str "boom") [])]) ∧
    (lambdaErrorResponse (.errorString "some errors")).shouldExit = false ∧
    handleInvoke ⟨none, none⟩
        ⟨"request-id", .ok emptyRequest, [("Lambda-Runtime-Deadline-Ms", ["1000"])]⟩
        (fun _ => .err (.errorString "some errors"))
      = (none, [.errorPost "request-id" (lambdaErrorResponse (.errorString "some errors"))]) :=
  c2_panic_exits_error_continues ⟨none, none⟩
    ⟨"request-id", .ok emptyRequest, [("Lambda-Runtime-Deadline-Ms", ["1000"])]⟩
    (fun _ => .panics (.str "boom") []) (fun _ => .err (.errorString "some errors"))
    emptyRequest 1000 (.str "boom") [] (.errorString "some errors")
    rfl (by decide) rfl rfl rfl rfl rfl

theorem mem_keys_upsert {α : Type} (l : List (String × α)) (k x : String) (v : α) :
    x ∈ (assocUpsert l k v).map Prod.fst ↔ x ∈ l.map Prod.fst ∨ x = k := by
  induction l with
  | nil => simp [assocUpsert]
  | cons kv t ih =>
    obtain ⟨k0, v0⟩ := kv
    by_cases he : k0 = k
    · subst he
      simp [assocUpsert]
      tauto
    · simp [assocUpsert, he, ih]
      tauto

theorem nodup_keys_upsert {α : Type} (l : List (String × α)) (k : String) (v : α)
    (h : (l.map Prod.fst).Nodup) : ((assocUpsert l k v).map Prod.fst).Nodup := by
  induction l with
  | nil => simp [assocUpsert]
  | cons kv t ih =>
    obtain ⟨k0, v0⟩ := kv
    simp only [List.map_cons, List.nodup_cons] at h
    by_cases he : k0 = k
    · subst he
      have hrw : assocUpsert ((k0, v0) :: t) k0 v = (k0, v) :: t := by
        simp [assocUpsert]
      rw [hrw]
      simp only [List.map_cons, List.nodup_cons]
      exact ⟨h.1, h.2⟩
    · have hrw : assocUpsert ((k0, v0) :: t) k v = (k0, v0) :: assocUpsert t k v := by
        simp [assocUpsert, he]
      rw [hrw]
      simp only [List.map_cons, List.nodup_cons]
      refine ⟨?_, ih h.2⟩
      intro hmem
      rcases (mem_keys_upsert t k k0 v).1 hmem with hm | hm
      · exact h.1 hm
      · exact he hm

theorem header_lookup_add (h : Header) (k v : String) :
    Header.lookup (Header.add h k v) (canonicalMIMEHeaderKey k)
      = some ((Header.lookup h (canonicalMIMEHeaderKey k)).getD [] ++ [v]) := by
  unfold Header.add Header.lookup
  cases hl : assocLookup h (canonicalMIMEHeaderKey k) with
  | some vs => simp [assocLookup_upsert, hl]
  | none => simp [assocLookup_append, hl, Option.orElse, assocLookup]

/-- Folding preserves absence of a key. -/
theorem foldHeadersV1_lookup_none (h : Header) (k : String)
    (hnot : k ∉ h.map Prod.fst) : assocLookup (foldHeadersV1 h) k = none := by
  induction h with
  | nil => rfl
  | cons kv t ih =>
    obtain ⟨k0, vs0⟩ := kv
    simp only [List.map_cons, List.mem_cons, not_or] at hnot
    have hne : ¬(k0 = k) := fun he => hnot.1 he.symm
    by_cases hsc : k0 = "Set-Cookie"
    · subst hsc
      cases vs0 with
      | nil =>
        simp only [foldHeadersV1, List.filterMap_cons, if_pos rfl]
        exact ih hnot.2
      | cons v0 vt =>
        simp only [foldHeadersV1, List.filterMap_cons, if_pos rfl]
        simpa [assocLookup, hne] using ih hnot.2
    · simp only [foldHeadersV1, List.filterMap_cons, if_neg hsc]
      simpa [assocLookup, hne] using ih hnot.2

theorem foldHeadersV1_lookup (h : Header) (k : String) (vs : List String)
    (hnd : (h.map Prod.fst).Nodup) (hkv : assocLookup h k = some vs) :
    assocLookup (foldHeadersV1 h) k
      = (if k = "Set-Cookie" then vs.head? else some (String.intercalate ", " vs)) := by
  induction h with
  | nil => simp [assocLookup] at hkv
  | cons kv t ih =>
    obtain ⟨k0, vs0⟩ := kv
    simp only [List.map_cons, List.nodup_cons] at hnd
    by_cases he : k0 = k
    · subst he
      simp only [assocLookup, if_pos rfl] at hkv
      injection hkv with hkv
      subst hkv
      by_cases hsc : k0 = "Set-Cookie"
      · subst hsc
        cases vs0 with
        | nil =>
          simp only [foldHeadersV1, List.filterMap_cons, if_pos rfl]
          rw [show assocLookup (foldHeadersV1 t) "Set-Cookie"
              = assocLookup (List.filterMap _ t) "Set-Cookie" from rfl] at *
          simpa using foldHeadersV1_lookup_none t "Set-Cookie" hnd.1
        | cons v0 vt =>
          simp [foldHeadersV1, List.filterMap_cons, assocLookup]
      · simp [foldHeadersV1, List.filterMap_cons, assocLookup, hsc]
    · have hkt : assocLookup t k = some vs := by
        simpa [assocLookup, he] using hkv
      have hrec := ih hnd.2 hkt
      by_cases hsc : k0 = "Set-Cookie"
      · subst hsc
        cases vs0 with
        | nil => simpa [foldHeadersV1, List.filterMap_cons] using hrec
        | cons v0 vt =>
          simpa [foldHeadersV1, List.filterMap_cons, assocLookup, he] using hrec
      · simpa [foldHeadersV1, List.filterMap_cons, assocLookup, he, hsc] using hrec

/-- The header map after encodeBody: unchanged when an explicit content
type was set, otherwise with the sniffed Content-Type added. -/
theorem encodeBody_snd_header (rw : ResponseWriter) :
    (rw.encodeBody).2.header
      = (if Header.get rw.header "Content-Type" ≠ "" then rw.header
         else Header.set rw.header "Content-Type" (detectContentType rw.w)) := by
  cases hwh : rw.wroteHeader <;>
    simp only [ResponseWriter.encodeBody, ResponseWriter.writeHeader, hwh, Bool.not_true,
      Bool.not_false, ite_true, ite_false, Bool.false_eq_true, if_true, if_false] <;>
    split <;> split <;> simp_all

/-- C4: for a buffered response classified binary the wire body is the
standard base64 encoding of the accumulated body bytes with
isBase64Encoded true, so base64-decoding the wire body reproduces the
original bytes exactly; for a text-classified response the wire body is
the literal accumulated bytes with isBase64Encoded false. -/
theorem c4_binary_base64_roundtrip (rw : ResponseWriter) (hb : ∀ b ∈ rw.w, b < 256) :
    ((rw.lambdaResponseV1).isBase64Encoded = true →
      (rw.lambdaResponseV1).body = b64EncodeBytes rw.w ∧
      b64DecodeBytes (rw.lambdaResponseV1).body = some rw.w) ∧
    ((rw.lambdaResponseV1).isBase64Encoded = false →
      (rw.lambdaResponseV1).body = rw.w) := by
  have key : ((rw.encodeBody).2.isBinary = true → (rw.encodeBody).1 = b64EncodeBytes rw.w) ∧
      ((rw.encodeBody).2.isBinary = false → (rw.encodeBody).1 = rw.w) := by
    cases hwh : rw.wroteHeader <;>
      simp only [ResponseWriter.encodeBody, ResponseWriter.writeHeader, hwh, Bool.not_true,
        Bool.not_false, ite_true, ite_false, Bool.false_eq_true, if_true, if_false] <;>
      split <;> split <;> simp_all
  have hflag : (rw.lambdaResponseV1).isBase64Encoded = (rw.encodeBody).2.isBinary := rfl
  have hbody : (rw.lambdaResponseV1).body = (rw.encodeBody).1 := rfl
  refine ⟨?_, ?_⟩
  · intro h
    rw [hflag] at h
    rw [hbody, key.1 h]
    exact ⟨rfl, b64_roundtrip rw.w hb⟩
  · intro h
    rw [hflag] at h
    rw [hbody, key.2 h]

theorem c4_binary_base64_roundtrip_witness :
    (∀ b ∈ ([137, 80, 78, 71, 13, 10, 26, 10] : Bytes), b < 256) ∧
    ((({ w := [137, 80, 78, 71, 13, 10, 26, 10], isBinary := false, wroteHeader := false,
         header := [], statusCode := 0 } : ResponseWriter).lambdaResponseV1).isBase64Encoded
        = true →
      (({ w := [137, 80, 78, 71, 13, 10, 26, 10], isBinary := false, wroteHeader := false,
          header := [], statusCode := 0 } : ResponseWriter).lambdaResponseV1).body
          = b64EncodeBytes [137, 80, 78, 71, 13, 10, 26, 10] ∧
      b64DecodeBytes
          (({ w := [137, 80, 78, 71, 13, 10, 26, 10], isBinary := false, wroteHeader := false,
              header := [], statusCode := 0 } : ResponseWriter).lambdaResponseV1).body
        = some [137, 80, 78, 71, 13, 10, 26, 10]) ∧
    ((({ w := [137, 80, 78, 71, 13, 10, 26, 10], isBinary := false, wroteHeader := false,
         header := [], statusCode := 0 } : ResponseWriter).lambdaResponseV1).isBase64Encoded
        = false →
      (({ w := [137, 80, 78, 71, 13, 10, 26, 10], isBinary := false, wroteHeader := false,
          header := [], statusCode := 0 } : ResponseWriter).lambdaResponseV1).body
        = [137, 80, 78, 71, 13, 10, 26, 10]) :=
  ⟨by decide,
   c4_binary_base64_roundtrip
     { w := [137, 80, 78, 71, 13, 10, 26, 10], isBinary := false, wroteHeader := false,
       header := [], statusCode := 0 } (by decide)⟩

/-- C6: rendering a buffered V1 response preserves every added header value
in the multi-value map (Add-ing the same value twice keeps both
occurrences, in order), and the folded single-value map joins each key's
values with a comma — except Set-Cookie, whose folded entry is exactly its
first value while the full ordered list stays in the multi-value map. -/
theorem c6_v1_multivalue_and_folded_maps (rw : ResponseWriter) (k v : String)
    (vs : List String)
    (hnd : (rw.header.map Prod.fst).Nodup)
    (hkv : assocLookup rw.header k = some vs)
    (hct : k = "Content-Type" → vs.headD "" ≠ "") :
    (Header.lookup (Header.add (Header.add rw.header k v) k v) (canonicalMIMEHeaderKey k)
        = some ((Header.lookup rw.header (canonicalMIMEHeaderKey k)).getD [] ++ [v, v])) ∧
    assocLookup ((rw.lambdaResponseV1).multiValueHeaders) k = some vs ∧
    assocLookup ((rw.lambdaResponseV1).headers) k
      = (if k = "Set-Cookie" then vs.head? else some (String.intercalate ", " vs)) := by
  have hcanonCT : canonicalMIMEHeaderKey "Content-Type" = "Content-Type" := by decide
  have hhdr := encodeBody_snd_header rw
  have hAdd : Header.lookup (Header.add (Header.add rw.header k v) k v)
      (canonicalMIMEHeaderKey k)
      = some ((Header.lookup rw.header (canonicalMIMEHeaderKey k)).getD [] ++ [v, v]) := by
    rw [header_lookup_add, header_lookup_add]
    cases Header.lookup rw.header (canonicalMIMEHeaderKey k) <;> simp
  have hpres : assocLookup ((rw.encodeBody).2.header) k = some vs ∧
      (((rw.encodeBody).2.header).map Prod.fst).Nodup := by
    by_cases hg : Header.get rw.header "Content-Type" = ""
    · have hkne : k ≠ "Content-Type" := by
        intro he
        subst he
        unfold Header.get at hg
        rw [hcanonCT, hkv] at hg
        cases vs with
        | nil => exact (hct rfl) rfl
        | cons v0 vt => exact (hct rfl) hg
      rw [hhdr, hg, if_neg (by simp)]
      constructor
      · unfold Header.set
        rw [hcanonCT, assocLookup_upsert, if_neg (fun he => hkne he.symm), hkv]
      · unfold Header.set
        rw [hcanonCT]
        exact nodup_keys_upsert _ _ _ hnd
    · rw [hhdr, if_pos hg]
      exact ⟨hkv, hnd⟩
  refine ⟨hAdd, ?_, ?_⟩
  · exact hpres.1
  · exact foldHeadersV1_lookup _ _ _ hpres.2 hpres.1

theorem c6_v1_multivalue_and_folded_maps_witness :
    ((([("Foo", ["a", "a"]), ("Set-Cookie", ["x=1", "y=2"])] : Header).map Prod.fst).Nodup ∧
      assocLookup ([("Foo", ["a", "a"]), ("Set-Cookie", ["x=1", "y=2"])] : Header) "Foo"
        = some ["a", "a"]) ∧
    (Header.lookup
        (Header.add
          (Header.add ([("Foo", ["a", "a"]), ("Set-Cookie", ["x=1", "y=2"])] : Header)
            "Foo" "a") "Foo" "a")
        (canonicalMIMEHeaderKey "Foo")
      = some ((Header.lookup
          ([("Foo", ["a", "a"]), ("Set-Cookie", ["x=1", "y=2"])] : Header)
          (canonicalMIMEHeaderKey "Foo")).getD [] ++ ["a", "a"])) ∧
    assocLookup ((({ w := [], isBinary := false, wroteHeader := false, header := [("Foo", ["a", "a"]), ("Set-Cookie", ["x=1", "y=2"])], statusCode := 0 } : ResponseWriter).lambdaResponseV1).multiValueHeaders) "Foo"
      = some ["a", "a"] ∧
    assocLookup ((({ w := [], isBinary := false, wroteHeader := false, header := [("Foo", ["a", "a"]), ("Set-Cookie", ["x=1", "y=2"])], statusCode := 0 } : ResponseWriter).lambdaResponseV1).headers) "Foo"
      = (if "Foo" = "Set-Cookie" then (["a", "a"] : List String).head?
         else some (String.intercalate ", " ["a", "a"])) :=
  ⟨⟨by decide, by decide⟩,
   c6_v1_multivalue_and_folded_maps
     { w := [], isBinary := false, wroteHeader := false, header := [("Foo", ["a", "a"]), ("Set-Cookie", ["x=1", "y=2"])], statusCode := 0 }
     "Foo" "a" ["a", "a"] (by decide) (by decide) (by decide)⟩

theorem assocLookup_map_canon (l : List (String × List String)) (k : String)
    (vsl : List String)
    (hnd : (l.map fun kv => canonicalMIMEHeaderKey kv.1).Nodup)
    (hmem : (k, vsl) ∈ l) :
    assocLookup (l.map fun kv => (canonicalMIMEHeaderKey kv.1, kv.2))
        (canonicalMIMEHeaderKey k) = some vsl := by
  induction l with
  | nil => simp at hmem
  | cons kv t ih =>
    obtain ⟨k0, vs0⟩ := kv
    simp only [List.map_cons, List.nodup_cons] at hnd
    rcases List.mem_cons.1 hmem with heq | hmem'
    · injection heq with h1 h2
      subst h1
      subst h2
      simp [assocLookup]
    · have hne : ¬(canonicalMIMEHeaderKey k0 = canonicalMIMEHeaderKey k) := by
        intro he
        apply hnd.1
        rw [he]
        exact List.mem_map_of_mem (fun kv => canonicalMIMEHeaderKey kv.1) hmem'
      simp only [List.map_cons, assocLookup, hne, if_false]
      exact ih hnd.2 hmem'

/-- C5: whenever a V1 event carries a non-empty multi-value header map
(respectively query map), the reconstructed request builds its headers
(respectively its query string) from the multi-value map alone — changing
the singular map changes nothing — preserving per-key value order and
duplicates; the singular maps are used only when the multi-value map is
empty. -/
theorem c5_v1_multivalue_precedence (r : Request) (hs : List (String × String))
    (qs : List (String × String)) :
    (r.multiValueHeaders ≠ [] →
      (httpRequestV1Headers { r with headers := hs } = httpRequestV1Headers r) ∧
      ((r.multiValueHeaders.map fun kv => canonicalMIMEHeaderKey kv.1).Nodup →
        ∀ k vsl, (k, vsl) ∈ r.multiValueHeaders →
          Header.lookup (httpRequestV1Headers r) (canonicalMIMEHeaderKey k) = some vsl)) ∧
    (r.multiValueQueryStringParameters ≠ [] →
      (httpRequestV1URI { r with queryStringParameters := qs } = httpRequestV1URI r) ∧
      ((r.multiValueQueryStringParameters.map Prod.fst).Nodup →
        httpRequestV1Query r = r.multiValueQueryStringParameters)) ∧
    (r.multiValueHeaders = [] →
      httpRequestV1Headers r
        = buildMap (r.headers.map fun kv => (canonicalMIMEHeaderKey kv.1, [kv.2]))) := by
  refine ⟨?_, ?_, ?_⟩
  · intro hmv
    have hne : r.multiValueHeaders.isEmpty = false := by
      cases hmvh : r.multiValueHeaders with
      | nil => exact absurd hmvh hmv
      | cons a t => rfl
    constructor
    · simp [httpRequestV1Headers, hne]
    · intro hnd k vsl hmem
      have hkeys : ((r.multiValueHeaders.map
          fun kv => (canonicalMIMEHeaderKey kv.1, kv.2)).map Prod.fst).Nodup := by
        rw [List.map_map]
        exact hnd
      unfold httpRequestV1Headers Header.lookup
      rw [hne]
      simp only [Bool.not_false, if_true, ite_true]
      rw [assocLookup_buildMap_of_nodup _ _ hkeys]
      exact assocLookup_map_canon _ _ _ hnd hmem
  · intro hmq
    have hne : r.multiValueQueryStringParameters.isEmpty = false := by
      cases hm : r.multiValueQueryStringParameters with
      | nil => exact absurd hm hmq
      | cons a t => rfl
    constructor
    · simp [httpRequestV1URI, httpRequestV1Query, hne]
    · intro hnd
      unfold httpRequestV1Query
      rw [hne]
      simp only [Bool.not_false, if_true, ite_true]
      exact buildMap_eq_self_of_nodup _ hnd
  · intro hmv
    simp [httpRequestV1Headers, hmv]

theorem c5_v1_multivalue_precedence_witness :
    (httpRequestV1Headers { emptyRequest with path := "/p", multiValueHeaders := [("accept", ["a1", "a2"])], headers := [("other", "v")], multiValueQueryStringParameters := [("q", ["1", "2"])], queryStringParameters := [("ig", "x")] }
      = httpRequestV1Headers { emptyRequest with path := "/p", multiValueHeaders := [("accept", ["a1", "a2"])], headers := [("accept", "zzz")], multiValueQueryStringParameters := [("q", ["1", "2"])], queryStringParameters := [("ig", "x")] }) ∧
    Header.lookup (httpRequestV1Headers { emptyRequest with path := "/p", multiValueHeaders := [("accept", ["a1", "a2"])], headers := [("accept", "zzz")], multiValueQueryStringParameters := [("q", ["1", "2"])], queryStringParameters := [("ig", "x")] }) (canonicalMIMEHeaderKey "accept")
      = some ["a1", "a2"] ∧
    (httpRequestV1URI { emptyRequest with path := "/p", multiValueHeaders := [("accept", ["a1", "a2"])], headers := [("accept", "zzz")], multiValueQueryStringParameters := [("q", ["1", "2"])], queryStringParameters := [("o", "y")] }
      = httpRequestV1URI { emptyRequest with path := "/p", multiValueHeaders := [("accept", ["a1", "a2"])], headers := [("accept", "zzz")], multiValueQueryStringParameters := [("q", ["1", "2"])], queryStringParameters := [("ig", "x")] }) ∧
    httpRequestV1Query { emptyRequest with path := "/p", multiValueHeaders := [("accept", ["a1", "a2"])], headers := [("accept", "zzz")], multiValueQueryStringParameters := [("q", ["1", "2"])], queryStringParameters := [("ig", "x")] }
      = [("q", ["1", "2"])] :=
  ⟨((c5_v1_multivalue_precedence { emptyRequest with path := "/p", multiValueHeaders := [("accept", ["a1", "a2"])], headers := [("accept", "zzz")], multiValueQueryStringParameters := [("q", ["1", "2"])], queryStringParameters := [("ig", "x")] } [("other", "v")] [("o", "y")]).1 (by decide)).1,
   ((c5_v1_multivalue_precedence { emptyRequest with path := "/p", multiValueHeaders := [("accept", ["a1", "a2"])], headers := [("accept", "zzz")], multiValueQueryStringParameters := [("q", ["1", "2"])], queryStringParameters := [("ig", "x")] } [("other", "v")] [("o", "y")]).1 (by decide)).2 (by decide) "accept" ["a1", "a2"] (by decide),
   ((c5_v1_multivalue_precedence { emptyRequest with path := "/p", multiValueHeaders := [("accept", ["a1", "a2"])], headers := [("accept", "zzz")], multiValueQueryStringParameters := [("q", ["1", "2"])], queryStringParameters := [("ig", "x")] } [("other", "v")] [("o", "y")]).2.1 (by decide)).1,
   ((c5_v1_multivalue_precedence { emptyRequest with path := "/p", multiValueHeaders := [("accept", ["a1", "a2"])], headers := [("accept", "zzz")], multiValueQueryStringParameters := [("q", ["1", "2"])], queryStringParameters := [("ig", "x")] } [("other", "v")] [("o", "y")]).2.1 (by decide)).2 (by decide)⟩

theorem streamStateOk_writeHeaderS (w : Bytes) (s : StreamingRW) (code : Nat)
    (h : streamStateOk w s) :
    streamStateOk w (s.writeHeaderS code) ∧ (s.writeHeaderS code).wroteHeader = true := by
  unfold streamStateOk at h ⊢
  obtain ⟨herr, hcase⟩ := h
  rcases hcase with ⟨hw, hout, hpre, hlen⟩ | ⟨hw, hout⟩
  · subst hpre
    have herr2 : s.errFlag.isSome = false := by rw [herr]; rfl
    simp only [StreamingRW.writeHeaderS, hw, herr2, Bool.false_eq_true, if_false,
      ite_false]
    refine ⟨⟨by trivial, .inr ⟨by trivial, ?_⟩⟩, by trivial⟩
    rw [hout]
    simp
  · have hid : s.writeHeaderS code = s := by
      unfold StreamingRW.writeHeaderS
      rw [hw]
      simp
    rw [hid]
    exact ⟨⟨herr, .inr ⟨hw, hout⟩⟩, hw⟩

theorem streamStateOk_writeS (w : Bytes) (s : StreamingRW) (data : Bytes)
    (h : streamStateOk w s) : streamStateOk (w ++ data) (s.writeS data) := by
  unfold streamStateOk at h ⊢
  obtain ⟨herr, hcase⟩ := h
  rcases hcase with ⟨hw, hout, hpre, hlen⟩ | ⟨hw, hout⟩
  · -- header not yet flushed
    subst hpre
    by_cases hct : s.hasContentType
    · -- explicit content type: flush, then forward
      have hflush := streamStateOk_writeHeaderS s.preludeBuf s 200
        ⟨herr, .inl ⟨hw, hout, rfl, hlen⟩⟩
      unfold streamStateOk at hflush
      obtain ⟨⟨herr1, hc1⟩, hw1⟩ := hflush
      rcases hc1 with ⟨hww, _, _, _⟩ | ⟨_, hout1⟩
      · rw [hw1] at hww; cases hww
      · simp only [StreamingRW.writeS, hw, Bool.false_eq_true, if_false, ite_false, hct,
          if_true, ite_true]
        refine ⟨by trivial, .inr ⟨by trivial, ?_⟩⟩
        rw [hout1]
        simp
    · -- sniffing buffer path
      simp only [StreamingRW.writeS, hw, Bool.false_eq_true, if_false, ite_false, hct,
        Bool.not_true]
      by_cases hover : s.preludeBuf.length + data.length > 512
      · -- the buffer fills to capacity; flush, then forward the rest
        have htk : (data.take (512 - s.preludeBuf.length)).length
            = 512 - s.preludeBuf.length := by
          rw [List.length_take]
          omega
        have hfill : (s.preludeBuf ++ data.take (512 - s.preludeBuf.length)).length
            = 512 := by
          rw [List.length_append, htk]
          omega
        simp only [hover, if_true, ite_true, hfill, if_pos]
        have hrest : (data.drop (data.take (512 - s.preludeBuf.length)).length).isEmpty
            = false := by
          rw [htk]
          cases hd : data.drop (512 - s.preludeBuf.length) with
          | nil =>
            exfalso
            have hld := List.length_drop (512 - s.preludeBuf.length) data
            rw [hd] at hld
            simp at hld
            omega
          | cons a t => rfl
        simp only [hrest, Bool.false_eq_true, if_false, ite_false]
        have herr2 : s.errFlag.isSome = false := by rw [herr]; rfl
        simp only [StreamingRW.writeHeaderS, hw, herr2, Bool.false_eq_true, if_false,
          ite_false]
        refine ⟨by trivial, .inr ⟨by trivial, ?_⟩⟩
        rw [hout]
        have hsplit : data.take (512 - s.preludeBuf.length)
              ++ data.drop (data.take (512 - s.preludeBuf.length)).length = data := by
          rw [htk]
          exact List.take_append_drop _ data
        have hjoin : s.preludeBuf ++ data
            = s.preludeBuf ++ (data.take (512 - s.preludeBuf.length)
                ++ data.drop (data.take (512 - s.preludeBuf.length)).length) := by
          rw [hsplit]
        rw [hjoin]
        simp [List.append_assoc]
      · -- everything fits in the buffer
        simp only [hover, if_false, ite_false]
        by_cases hfull : (s.preludeBuf ++ data).length = 512
        · -- it fills exactly: flush with an empty rest
          simp only [hfull, if_pos, ite_true]
          have hrest : (data.drop data.length).isEmpty = true := by simp
          simp only [hrest, if_true, ite_true]
          have herr2 : s.errFlag.isSome = false := by rw [herr]; rfl
          simp only [StreamingRW.writeHeaderS, hw, herr2, Bool.false_eq_true, if_false,
            ite_false]
          refine ⟨by trivial, .inr ⟨by trivial, ?_⟩⟩
          rw [hout]
          simp
        · -- still buffering
          simp only [hfull, if_false, ite_false]
          have hrest : (data.drop data.length).isEmpty = true := by simp
          simp only [hrest, if_true, ite_true]
          refine ⟨by trivial, .inl ⟨by trivial, by trivial, by trivial, ?_⟩⟩
          rw [List.length_append] at hfull ⊢
          omega
  · -- already flushed: straight through
    simp only [StreamingRW.writeS, hw, if_true, ite_true]
    refine ⟨by trivial, .inr ⟨by trivial, ?_⟩⟩
    rw [hout]
    simp

theorem streamStateOk_streamRun (ops : List StreamOp) (w : Bytes) (s : StreamingRW)
    (h : streamStateOk w s) :
    streamStateOk (w ++ writtenBytes ops) (streamRun s ops) := by
  induction ops generalizing w s with
  | nil => simpa [streamRun, writtenBytes] using h
  | cons op t ih =>
    cases op with
    | writeHeader code =>
      have := (streamStateOk_writeHeaderS w s code h).1
      simpa [streamRun, writtenBytes] using ih w _ this
    | write data =>
      have := streamStateOk_writeS w s data h
      have := ih (w ++ data) _ this
      simpa [streamRun, writtenBytes, List.append_assoc] using this
    | flush =>
      have hf : streamStateOk w s.flushS := by
        unfold StreamingRW.flushS
        by_cases hw : s.wroteHeader
        · simpa [hw] using h
        · simp only [hw, Bool.not_false, if_true, ite_true]
          exact (streamStateOk_writeHeaderS w s 200 h).1
      simpa [streamRun, writtenBytes] using ih w _ hf

/-- C3: the byte sequence a streaming response delivers to the outbound
POST body is exactly the JSON header block (statusCode, folded headers,
cookies), then eight zero bytes, then the handler's body bytes unmodified
and in order (prelude bytes buffered before the flush included); at the
repository's own example — body \x7b"hello":"world"\x7d with content type
application/json — the bytes match the expected framing literally. -/
theorem c3_streaming_framing (h : Header) (ops : List StreamOp) :
    ((streamRun (newStreamingRW h) ops).closeS.wroteHeader = true ∧
     (streamRun (newStreamingRW h) ops).closeS.out
       = headerBlockBytes (streamRun (newStreamingRW h) ops).closeS.statusCode
           (streamRun (newStreamingRW h) ops).closeS.header
         ++ zeros8 ++ writtenBytes ops) ∧
    (StreamingRW.closeS
        (streamRun (newStreamingRW [("Content-Type", ["application/json"])])
          [.write (bytesOfString "\x7b\"hello\":\"world\"\x7d")])).out
      = bytesOfString
          "\x7b\"statusCode\":200,\"headers\":\x7b\"Content-Type\":\"application/json\"\x7d\x7d"
        ++ zeros8 ++ bytesOfString "\x7b\"hello\":\"world\"\x7d" := by
  constructor
  · have h0 : streamStateOk [] (newStreamingRW h) := by
      refine ⟨rfl, .inl ⟨rfl, rfl, rfl, by decide⟩⟩
    have hrun := streamStateOk_streamRun ops [] (newStreamingRW h) h0
    simp only [List.nil_append] at hrun
    have hclose : streamStateOk (writtenBytes ops) (streamRun (newStreamingRW h) ops).closeS
        ∧ (streamRun (newStreamingRW h) ops).closeS.wroteHeader = true := by
      unfold StreamingRW.closeS
      by_cases hw : (streamRun (newStreamingRW h) ops).wroteHeader
      · constructor
        · simpa [hw] using hrun
        · simp [hw]
      · simp only [hw, Bool.not_false, if_true, ite_true]
        exact ⟨(streamStateOk_writeHeaderS _ _ 200 hrun).1,
          (streamStateOk_writeHeaderS _ _ 200 hrun).2⟩
    obtain ⟨⟨herr, hcase⟩, hwh⟩ := hclose
    rcases hcase with ⟨hww, _, _, _⟩ | ⟨_, hout⟩
    · rw [hwh] at hww; cases hww
    · exact ⟨hwh, hout⟩
  · decide

end Ridgenative
